import Mathlib

/-!
Verification of the FVENS cell-centred finite-volume spatial discretization
engine (files src/spatial/aspatial.cpp and src/utilities/afactory.cpp) against
its natural-language specification.

Scalars are modelled by ℚ (the source uses IEEE doubles; exact rational
arithmetic keeps every definition computable).  Arrays indexed by cells or
faces are modelled by functions out of ℕ.  Virtual dispatch (the inviscid flux
object, the boundary-condition registry, the gradient scheme and the limiter)
is modelled by function-valued fields of a configuration structure, mirroring
the abstract interfaces declared in anumericalflux.hpp, abc.hpp and
agradientschemes.hpp whose concrete implementations live outside the spatial
engine.
-/

namespace FVENS

/-- NVARS = 4 conserved variables (aconstants.hpp). -/
abbrev nvarsN : ℕ := 4

/-- NDIM = 2 space dimensions (aconstants.hpp). -/
abbrev ndimN : ℕ := 2

/-- One cell's state: 4 scalars (ρ, ρu, ρv, ρE), or a primitive variant. -/
abbrev StateVec := Fin 4 → ℚ

/-- A per-cell gradient: one state-sized row per space direction. -/
abbrev GradVec := Fin 2 → StateVec

/-- The immutable mesh interface consumed by the spatial engine
(class UMesh2dh): cell/face counts, face connectivity `gintfac`, face metrics
`gfacemetric` (unit normal and length), cell areas `garea`, boundary markers
`gintfacbtags`, the periodic face map `gperiodicmap` and node coordinates
`gcoords`.  Faces 0..nbface-1 are boundary faces, the rest interior. -/
structure FVMesh where
  nelem : ℕ
  nbface : ℕ
  naface : ℕ
  leftCell : ℕ → ℕ
  rightCell : ℕ → ℕ
  facenode1 : ℕ → ℕ
  facenode2 : ℕ → ℕ
  nx : ℕ → ℚ
  ny : ℕ → ℚ
  flen : ℕ → ℚ
  area : ℕ → ℚ
  btag : ℕ → ℤ
  periodicmap : ℕ → ℕ
  coords : ℕ → Fin 2 → ℚ

/-! ### Modified-average face gradient (claim C6)

Embedding of `Spatial::getFaceGradient_modifiedAverage` (aspatial.cpp).
The source computes the centroid distance internally with `std::sqrt`; since ℚ
has no exact square root, the distance `dist` is an explicit argument here and
its defining property (positive square root of the squared centroid distance)
is carried as a hypothesis of the theorem. -/

/-- Embedding of `Spatial::getFaceGradient_modifiedAverage`: `dr` is the
centroid-to-centroid vector divided by `dist`; per variable the averaged
gradient has its component along `dr` removed and replaced with the compact
difference `corr = (ucr - ucl)/dist`. -/
def getFaceGradient_modifiedAverage (m : FVMesh) (rc : ℕ → Fin 2 → ℚ) (iface : ℕ)
    (dist : ℚ) (ucl ucr : StateVec) (gradl gradr : GradVec) : GradVec :=
  let lelem := m.leftCell iface
  let relem := m.rightCell iface
  let dr : Fin 2 → ℚ := fun i => (rc relem i - rc lelem i) / dist
  fun j i =>
    let davg : Fin 2 → ℚ := fun jj => (1/2) * (gradl jj i + gradr jj i)
    let corr : ℚ := (ucr i - ucl i) / dist
    let ddr : ℚ := davg 0 * dr 0 + davg 1 * dr 1
    davg j - ddr * dr j + corr * dr j

/-- The face-gradient formula exactly as the specification words it:
g_face_j = g_avg_j − (g_avg · e) e_j + corr · e_j with corr = (φ_R − φ_L)/d. -/
def spec_faceGradient (e : Fin 2 → ℚ) (d : ℚ) (phiL phiR : StateVec)
    (gL gR : GradVec) : GradVec :=
  fun j i =>
    let gavg : Fin 2 → ℚ := fun jj => (gL jj i + gR jj i) / 2
    let corr : ℚ := (phiR i - phiL i) / d
    gavg j - (gavg 0 * e 0 + gavg 1 * e 1) * e j + corr * e j

/-- C6: for every interior face with unit centroid-to-centroid direction e and
centroid distance d, the modified-average face gradient equals the arithmetic
mean of the two cell gradients with its component along e removed and replaced
by the compact difference (φ_R − φ_L)/d times e; moreover the direction used
by the code is indeed a unit vector. -/
theorem C6_faceGradient_matches_spec (m : FVMesh) (rc : ℕ → Fin 2 → ℚ)
    (iface : ℕ) (dist : ℚ) (ucl ucr : StateVec) (gradl gradr : GradVec)
    (hpos : 0 < dist)
    (hdist : dist * dist =
      (rc (m.rightCell iface) 0 - rc (m.leftCell iface) 0) ^ 2 +
      (rc (m.rightCell iface) 1 - rc (m.leftCell iface) 1) ^ 2) :
    getFaceGradient_modifiedAverage m rc iface dist ucl ucr gradl gradr =
      spec_faceGradient
        (fun i => (rc (m.rightCell iface) i - rc (m.leftCell iface) i) / dist)
        dist ucl ucr gradl gradr ∧
    ((rc (m.rightCell iface) 0 - rc (m.leftCell iface) 0) / dist) ^ 2 +
      ((rc (m.rightCell iface) 1 - rc (m.leftCell iface) 1) / dist) ^ 2 = 1 := by
  constructor
  · funext j i
    simp only [getFaceGradient_modifiedAverage, spec_faceGradient]
    ring
  · have hne : dist ≠ 0 := ne_of_gt hpos
    field_simp
    linarith [hdist]

/-- Witness for C6 at a concrete face: centroid offset (3,4), distance 5. -/
theorem C6_faceGradient_matches_spec_witness :
    (0 : ℚ) < 5 ∧
    ((5 : ℚ) * 5 = ((3 : ℚ) - 0) ^ 2 + ((4 : ℚ) - 0) ^ 2) ∧
    (getFaceGradient_modifiedAverage
        { nelem := 2, nbface := 0, naface := 1,
          leftCell := fun _ => 0, rightCell := fun _ => 1,
          facenode1 := fun _ => 0, facenode2 := fun _ => 1,
          nx := fun _ => 1, ny := fun _ => 0, flen := fun _ => 1,
          area := fun _ => 1, btag := fun _ => 0, periodicmap := fun _ => 0,
          coords := fun _ _ => 0 }
        (fun c i => if c = 1 then (if i = 0 then 3 else 4) else 0) 0 5
        (fun _ => 1) (fun _ => 2) (fun _ _ => 1) (fun _ _ => 3) =
      spec_faceGradient
        (fun i =>
          ((fun c ii => if c = 1 then (if ii = 0 then (3 : ℚ) else 4) else 0) 1 i -
           (fun c ii => if c = 1 then (if ii = 0 then (3 : ℚ) else 4) else 0) 0 i) / 5)
        5 (fun _ => 1) (fun _ => 2) (fun _ _ => 1) (fun _ _ => 3)) := by
  refine ⟨by norm_num, by norm_num, ?_⟩
  exact (C6_faceGradient_matches_spec _ _ 0 5 _ _ _ _ (by norm_num) (by norm_num)).1

/-! ### Factories (claims C7 and C10)

Embeddings of `create_mutable_inviscidflux` and
`create_mutable_gradientscheme` from afactory.cpp.  Both are pure
string-dispatch functions; the returned raw pointer is modelled by an
`Option` (flux factory, which can return null) respectively by a total
kind (gradient factory, which always constructs some scheme). -/

/-- The concrete inviscid flux classes instantiable by the factory
(anumericalflux.hpp). -/
inductive InviscidFluxKind where
  | VanLeer
  | Roe
  | HLL
  | HLLC
  | LLF
  | AUSM
  | AUSMPlus
deriving DecidableEq

/-- Embedding of `create_mutable_inviscidflux` (afactory.cpp): string dispatch
over the recognized scheme names; on any other name the source merely prints
" InviscidFluxFactory: ! Flux scheme not available!" and returns the
null pointer it started with, modelled by `none`.  No error of any kind is
raised. -/
def create_mutable_inviscidflux (type : String) : Option InviscidFluxKind :=
  if type = "VANLEER" then some .VanLeer
  else if type = "ROE" then some .Roe
  else if type = "HLL" then some .HLL
  else if type = "HLLC" then some .HLLC
  else if type = "LLF" then some .LLF
  else if type = "AUSM" then some .AUSM
  else if type = "AUSMPLUS" then some .AUSMPlus
  else none

/-- C7 counterexample: on the unrecognized flux name "BADFLUX" the factory
returns the null pointer (`none`); the embedded factory has no failure
channel at all, so configuring with an unknown inviscid flux name does not
fail with a config-invalid error as claimed — construction of the engine
proceeds with a null flux object. -/
theorem C7_counterexample_unknown_flux_returns_null :
    create_mutable_inviscidflux "BADFLUX" = none ∧
    create_mutable_inviscidflux "AUSMPLUS" = some InviscidFluxKind.AUSMPlus := by
  constructor <;> rfl

/-- C7 (amended): an inviscid flux name yields a null flux object (and no
config-invalid error) exactly when it is outside the recognized set
{VANLEER, ROE, HLL, HLLC, LLF, AUSM, AUSMPLUS}; recognized names yield the
corresponding scheme. -/
theorem C7_flux_factory_null_iff_unrecognized (type : String) :
    create_mutable_inviscidflux type = none ↔
      type ∉ (["VANLEER", "ROE", "HLL", "HLLC", "LLF", "AUSM", "AUSMPLUS"] :
        List String) := by
  unfold create_mutable_inviscidflux
  split_ifs with h1 h2 h3 h4 h5 h6 h7 <;> simp_all

/-- The concrete gradient scheme classes instantiable by the factory
(agradientschemes.hpp). -/
inductive GradientSchemeKind where
  | LeastSquares
  | GreenGauss
  | Zero
deriving DecidableEq

/-- Embedding of `create_mutable_gradientscheme` (afactory.cpp): recognizes
"LEASTSQUARES" and "GREENGAUSS"; the `else` branch constructs `ZeroGradients`
(printing only " GradientSchemeFactory: No gradient computation.") for every
other string. -/
def create_mutable_gradientscheme (type : String) : GradientSchemeKind :=
  if type = "LEASTSQUARES" then .LeastSquares
  else if type = "GREENGAUSS" then .GreenGauss
  else .Zero

/-- C10: every gradient-scheme name other than "LEASTSQUARES" and
"GREENGAUSS" (misspellings included) silently yields the ZeroGradients
scheme; no configuration error is reported (the factory is total and never
returns null). -/
theorem C10_gradient_factory_fallback_zero (type : String)
    (h1 : type ≠ "LEASTSQUARES") (h2 : type ≠ "GREENGAUSS") :
    create_mutable_gradientscheme type = GradientSchemeKind.Zero := by
  unfold create_mutable_gradientscheme
  simp [h1, h2]

/-- Witness for C10 at the misspelling "LEASTSQAURES". -/
theorem C10_gradient_factory_fallback_zero_witness :
    ("LEASTSQAURES" ≠ "LEASTSQUARES" ∧ "LEASTSQAURES" ≠ "GREENGAUSS") ∧
    create_mutable_gradientscheme "LEASTSQAURES" = GradientSchemeKind.Zero :=
  ⟨⟨by decide, by decide⟩,
   C10_gradient_factory_fallback_zero "LEASTSQAURES" (by decide) (by decide)⟩

/-! ### The flow spatial engine: residual assembly

Embedding of `FlowFV<secondOrderRequested,constVisc>::compute_residual`
(aspatial.cpp lines 883–1086) together with
`FlowFV_base::compute_boundary_states` (lines 297–312).  The engine's
collaborators that are virtual-dispatch objects in the source — the inviscid
flux (`inviflux->get_flux`), the boundary conditions
(`bcs.at(marker)->computeGhostState`), the gradient scheme
(`gradcomp->compute_gradients`), the limiter (`lim->compute_face_values`) and
the gas-physics routines of `IdealGasPhysics` — are fields of `FlowSpec`,
since their concrete implementations live outside the spatial engine.  The
viscous flux routine `computeViscousFlux` is likewise kept as a field: it is
invoked exactly as in the source (face index, two cell states, ug, gradients
and both face-state arrays) but its value never matters for the properties
proved here. -/

/-- One engine instance: the mesh plus the configuration switches and the
collaborator operations of `FlowFV_base`/`FlowFV`. -/
structure FlowSpec where
  m : FVMesh
  periodicId : ℤ
  secondOrder : Bool
  viscous : Bool
  constVisc : Bool
  gamma : ℚ
  prandtl : ℚ
  bcGhost : ℕ → StateVec → StateVec
  flux : StateVec → StateVec → ℚ → ℚ → StateVec
  viscFlux : ℕ → StateVec → Option StateVec → (ℕ → StateVec) → (ℕ → GradVec) →
    (ℕ → StateVec) → (ℕ → StateVec) → StateVec
  getPrimitiveFromConserved : StateVec → StateVec
  getConservedFromPrimitive : StateVec → StateVec
  soundSpeed : StateVec → ℚ
  viscCoeff : StateVec → ℚ
  constViscCoeff : ℚ
  gradScheme : (ℕ → StateVec) → (ℕ → StateVec) → ℕ → GradVec
  limiter : (ℕ → StateVec) → (ℕ → StateVec) → (ℕ → GradVec) → (ℕ → StateVec) →
    (ℕ → StateVec) → (ℕ → StateVec) × (ℕ → StateVec)

/-- Embedding of `FlowFV_base::compute_boundary_states` (lines 297–312): for
each boundary face the BC ghost state is computed from that face's entry of
`ins`, then faces carrying the periodic marker are overwritten with the entry
of `ins` at the paired face.  Rows at and beyond `nbface` of `bs` are left
untouched. -/
def compute_boundary_states (P : FlowSpec) (ins bs : ℕ → StateVec) : ℕ → StateVec :=
  fun ied =>
    if ied < P.m.nbface then
      if P.m.btag ied = P.periodicId then ins (P.m.periodicmap ied)
      else P.bcGhost ied (ins ied)
    else bs ied

/-- Lines 906–914: left states of boundary faces are initialized with the
cell-centred states of their left cells.  The remaining rows of the freshly
allocated array are modelled as zero. -/
def residual_uleft_init (P : FlowSpec) (u : ℕ → StateVec) : ℕ → StateVec :=
  fun ied => if ied < P.m.nbface then u (P.m.leftCell ied) else fun _ => 0

/-- Line 924 (second-order branch): conserved ghost cell averages `ug`
obtained from the boundary conditions applied to cell-centre values. -/
def residual_ug_cons (P : FlowSpec) (u : ℕ → StateVec) : ℕ → StateVec :=
  compute_boundary_states P (residual_uleft_init P u) (fun _ _ => 0)

/-- Lines 931–935: `ug` converted to primitive variables in place. -/
def residual_ug_prim (P : FlowSpec) (u : ℕ → StateVec) : ℕ → StateVec :=
  fun ied =>
    if ied < P.m.nbface then P.getPrimitiveFromConserved (residual_ug_cons P u ied)
    else residual_ug_cons P u ied

/-- Lines 937–939: primitive cell-centre states `up`. -/
def residual_up (P : FlowSpec) (u : ℕ → StateVec) : ℕ → StateVec :=
  fun iel => P.getPrimitiveFromConserved (u iel)

/-- Line 943 (second-order branch): cell gradients of the primitive field. -/
def residual_grads (P : FlowSpec) (u : ℕ → StateVec) : ℕ → GradVec :=
  P.gradScheme (residual_up P u) (residual_ug_prim P u)

/-- Line 944 (second-order branch): reconstructed, limited face values
(primitive), written over the uleft/uright arrays as they stand there. -/
def residual_limited (P : FlowSpec) (u : ℕ → StateVec) :
    (ℕ → StateVec) × (ℕ → StateVec) :=
  P.limiter (residual_up P u) (residual_ug_prim P u) (residual_grads P u)
    (residual_uleft_init P u) (fun _ _ => 0)

/-- Lines 946–959: reconstructed left face values converted back to conserved
variables — interior faces in the first loop, boundary faces in the second,
so every face below `naface`. -/
def residual_uleft_conv (P : FlowSpec) (u : ℕ → StateVec) : ℕ → StateVec :=
  fun f =>
    if f < P.m.naface then P.getConservedFromPrimitive ((residual_limited P u).1 f)
    else (residual_limited P u).1 f

/-- Lines 949–954: reconstructed right face values converted back to
conserved variables on interior faces only. -/
def residual_uright_conv (P : FlowSpec) (u : ℕ → StateVec) : ℕ → StateVec :=
  fun f =>
    if P.m.nbface ≤ f ∧ f < P.m.naface then
      P.getConservedFromPrimitive ((residual_limited P u).2 f)
    else (residual_limited P u).2 f

/-- Lines 962–978 (first-order branch): face states of interior faces are the
cell-centred states of the two adjacent cells; boundary rows of uleft keep
their initialization. -/
def residual_uleft_firstorder (P : FlowSpec) (u : ℕ → StateVec) : ℕ → StateVec :=
  fun f =>
    if P.m.nbface ≤ f ∧ f < P.m.naface then u (P.m.leftCell f)
    else residual_uleft_init P u f

/-- First-order right face states on interior faces (boundary rows are filled
later by `compute_boundary_states`; the fresh array is modelled as zero). -/
def residual_uright_firstorder (P : FlowSpec) (u : ℕ → StateVec) : ℕ → StateVec :=
  fun f =>
    if P.m.nbface ≤ f ∧ f < P.m.naface then u (P.m.rightCell f)
    else fun _ => 0

/-- The left face states as they stand at the face-flux loop (line 994),
after the order-dependent reconstruction branch. -/
def residual_uleft (P : FlowSpec) (u : ℕ → StateVec) : ℕ → StateVec :=
  if P.secondOrder then residual_uleft_conv P u else residual_uleft_firstorder P u

/-- The right face states at the face-flux loop: the order-dependent branch
followed by `compute_boundary_states(uleft, uright)` (line 981), which sets
the ghost rows of the boundary faces. -/
def residual_uright (P : FlowSpec) (u : ℕ → StateVec) : ℕ → StateVec :=
  compute_boundary_states P (residual_uleft P u)
    (if P.secondOrder then residual_uright_conv P u else residual_uright_firstorder P u)

/-- The `ug` array as the face-flux loop sees it: primitive ghost averages in
the second-order branch, the untouched (zero-modelled) allocation otherwise. -/
def residual_ug_used (P : FlowSpec) (u : ℕ → StateVec) : ℕ → StateVec :=
  if P.secondOrder then residual_ug_prim P u else fun _ _ => 0

/-- The gradients array as the face-flux loop sees it: computed in the
second-order branch, the empty allocation (zero-modelled) otherwise. -/
def residual_grads_used (P : FlowSpec) (u : ℕ → StateVec) : ℕ → GradVec :=
  if P.secondOrder then residual_grads P u else fun _ _ _ => 0

/-- Lines 996–1020: the per-face flux vector — inviscid flux times face
length, plus (for viscous simulations) the viscous flux times face length;
for boundary faces the right cell state pointer passed to the viscous flux is
null. -/
def residual_faceFlux (P : FlowSpec) (u : ℕ → StateVec) (ied : ℕ) : StateVec :=
  let len := P.m.flen ied
  let inv := P.flux (residual_uleft P u ied) (residual_uright P u ied)
    (P.m.nx ied) (P.m.ny ied)
  let base : StateVec := fun ivar => inv ivar * len
  if P.viscous then
    let urt : Option StateVec :=
      if ied < P.m.nbface then none else some (u (P.m.rightCell ied))
    let vf := P.viscFlux ied (u (P.m.leftCell ied)) urt (residual_ug_used P u)
      (residual_grads_used P u) (residual_uleft P u) (residual_uright P u)
    fun ivar => base ivar + vf ivar * len
  else base

/-- Lines 1037–1060: spectral-radius contribution of a face to its left cell:
(|vni|+ci)·len from the left face state, plus the viscous stiffness term
coi·mui/Pr·len²/area(lelem) for viscous simulations. -/
def residual_specradi (P : FlowSpec) (u : ℕ → StateVec) (ied : ℕ) : ℚ :=
  let ulf := residual_uleft P u ied
  let len := P.m.flen ied
  let ci := P.soundSpeed ulf
  let vni := (ulf 1 * P.m.nx ied + ulf 2 * P.m.ny ied) / ulf 0
  let base := (|vni| + ci) * len
  if P.viscous then
    let mui := if P.constVisc then P.constViscCoeff else P.viscCoeff ulf
    let coi := max (4 / (3 * ulf 0)) (P.gamma / ulf 0)
    base + coi * mui / P.prandtl * (len * len) / P.m.area (P.m.leftCell ied)
  else base

/-- Lines 1037–1062: spectral-radius contribution of a face to its right
cell; the viscous stiffness term is added only when the right cell is a real
cell (line 1061). -/
def residual_specradj (P : FlowSpec) (u : ℕ → StateVec) (ied : ℕ) : ℚ :=
  let urf := residual_uright P u ied
  let len := P.m.flen ied
  let cj := P.soundSpeed urf
  let vnj := (urf 1 * P.m.nx ied + urf 2 * P.m.ny ied) / urf 0
  let base := (|vnj| + cj) * len
  if P.viscous ∧ P.m.rightCell ied < P.m.nelem then
    let muj := if P.constVisc then P.constViscCoeff else P.viscCoeff urf
    let coj := max (4 / (3 * urf 0)) (P.gamma / urf 0)
    base + coj * muj / P.prandtl * (len * len) / P.m.area (P.m.rightCell ied)
  else base

/-- Mutable state of the face loop: the residual array being accumulated into
and the per-cell spectral-radius integral `integ`. -/
structure ResAcc where
  res : ℕ → StateVec
  integ : ℕ → ℚ

/-- One iteration of the face loop (lines 993–1073) for face `ied`: subtract
the face flux from the left cell's residual row, add it to the right cell's
row when the right cell is a real cell, and, when time steps are requested,
accumulate the spectral-radius contributions the same way. -/
def residual_faceStep (P : FlowSpec) (u : ℕ → StateVec) (gettimesteps : Bool)
    (ied : ℕ) (acc : ResAcc) : ResAcc :=
  let fluxes := residual_faceFlux P u ied
  let lelem := P.m.leftCell ied
  let relem := P.m.rightCell ied
  let res1 : ℕ → StateVec :=
    Function.update acc.res lelem (fun ivar => acc.res lelem ivar - fluxes ivar)
  let res2 : ℕ → StateVec :=
    if relem < P.m.nelem then
      Function.update res1 relem (fun ivar => res1 relem ivar + fluxes ivar)
    else res1
  let integ1 : ℕ → ℚ :=
    if gettimesteps then
      Function.update acc.integ lelem (acc.integ lelem + residual_specradi P u ied)
    else acc.integ
  let integ2 : ℕ → ℚ :=
    if gettimesteps ∧ relem < P.m.nelem then
      Function.update integ1 relem (integ1 relem + residual_specradj P u ied)
    else integ1
  { res := res2, integ := integ2 }

/-- The face loop over faces 0, …, n−1. -/
def residual_faceLoop (P : FlowSpec) (u : ℕ → StateVec) (gettimesteps : Bool) :
    ℕ → ResAcc → ResAcc
  | 0, acc => acc
  | n + 1, acc => residual_faceStep P u gettimesteps n
      (residual_faceLoop P u gettimesteps n acc)

/-- Result of one residual evaluation: the returned `StatusCode` (PETSc
convention, 0 = success), the residual array and the local time steps. -/
structure ResOut where
  status : ℤ
  res : ℕ → StateVec
  dtm : ℕ → ℚ

/-- Embedding of `FlowFV::compute_residual` (lines 883–1086), which is the
whole body of `assemble_residual`: zero the spectral-radius integral,
build the face states, run the face loop accumulating into the caller's
residual array `r0`, and derive local time steps dtm[c] = area(c)/integ(c)
when requested.  The body declares `StatusCode ierr = 0` and never assigns
any other value, so the returned status is 0 on every input. -/
def compute_residual (P : FlowSpec) (u : ℕ → StateVec) (r0 : ℕ → StateVec)
    (gettimesteps : Bool) : ResOut :=
  let acc0 : ResAcc := { res := r0, integ := fun _ => 0 }
  let acc := residual_faceLoop P u gettimesteps P.m.naface acc0
  { status := 0
    res := acc.res
    dtm := fun iel =>
      if gettimesteps ∧ iel < P.m.nelem then P.m.area iel / acc.integ iel else 0 }

/-! ### Face-loop characterization lemmas -/

/-- Sum g(0) + … + g(n−1). -/
def sumUpTo (g : ℕ → ℚ) : ℕ → ℚ
  | 0 => 0
  | n + 1 => sumUpTo g n + g n

/-- The flux contribution of face `ied` to the residual row of cell `c`:
minus the face flux when `c` is the left cell, plus the face flux when `c` is
the right cell and that cell is a real cell. -/
def resContrib (P : FlowSpec) (u : ℕ → StateVec) (ied c : ℕ) (ivar : Fin 4) : ℚ :=
  (if c = P.m.leftCell ied then -(residual_faceFlux P u ied ivar) else 0) +
  (if c = P.m.rightCell ied ∧ P.m.rightCell ied < P.m.nelem then
    residual_faceFlux P u ied ivar else 0)

/-- The spectral-radius contribution of face `ied` to the integral of cell
`c`. -/
def integContrib (P : FlowSpec) (u : ℕ → StateVec) (ied c : ℕ) : ℚ :=
  (if c = P.m.leftCell ied then residual_specradi P u ied else 0) +
  (if c = P.m.rightCell ied ∧ P.m.rightCell ied < P.m.nelem then
    residual_specradj P u ied else 0)

/-- One face-loop step adds exactly `resContrib` to each residual row. -/
theorem residual_faceStep_res (P : FlowSpec) (u : ℕ → StateVec)
    (gettimesteps : Bool) (ied : ℕ) (acc : ResAcc) (c : ℕ) (ivar : Fin 4) :
    (residual_faceStep P u gettimesteps ied acc).res c ivar =
      acc.res c ivar + resContrib P u ied c ivar := by
  simp only [residual_faceStep, resContrib, Function.update_apply]
  split_ifs <;> simp_all <;> ring

/-- One face-loop step adds exactly `integContrib` to each cell's
spectral-radius integral when time steps are requested, and leaves it alone
otherwise. -/
theorem residual_faceStep_integ (P : FlowSpec) (u : ℕ → StateVec)
    (gettimesteps : Bool) (ied : ℕ) (acc : ResAcc) (c : ℕ) :
    (residual_faceStep P u gettimesteps ied acc).integ c =
      acc.integ c + if gettimesteps then integContrib P u ied c else 0 := by
  simp only [residual_faceStep, integContrib, Function.update_apply]
  cases gettimesteps with
  | false => simp
  | true =>
    simp only [if_true, true_and]
    split_ifs <;> simp_all [Function.update_apply] <;> ring

/-- Running the face loop over the first n faces adds the sum of the per-face
flux contributions to each residual row. -/
theorem residual_faceLoop_res (P : FlowSpec) (u : ℕ → StateVec)
    (gettimesteps : Bool) (n : ℕ) (acc : ResAcc) (c : ℕ) (ivar : Fin 4) :
    (residual_faceLoop P u gettimesteps n acc).res c ivar =
      acc.res c ivar + sumUpTo (fun f => resContrib P u f c ivar) n := by
  induction n with
  | zero => simp [residual_faceLoop, sumUpTo]
  | succ n ih =>
    simp only [residual_faceLoop, sumUpTo, residual_faceStep_res, ih]
    ring

/-- Running the face loop over the first n faces adds the sum of the per-face
spectral-radius contributions to each cell's integral (when requested). -/
theorem residual_faceLoop_integ (P : FlowSpec) (u : ℕ → StateVec)
    (gettimesteps : Bool) (n : ℕ) (acc : ResAcc) (c : ℕ) :
    (residual_faceLoop P u gettimesteps n acc).integ c =
      acc.integ c +
        if gettimesteps then sumUpTo (fun f => integContrib P u f c) n else 0 := by
  induction n with
  | zero => cases gettimesteps <;> simp [residual_faceLoop, sumUpTo]
  | succ n ih =>
    simp only [residual_faceLoop, sumUpTo, residual_faceStep_integ, ih]
    cases gettimesteps <;> simp <;> ring

/-! ### Concrete test engines -/

/-- A one-cell, one-boundary-face, first-order inviscid engine: the numerical
flux of a face is its left state and every BC is extrapolation. -/
def ex1spec : FlowSpec where
  m := { nelem := 1, nbface := 1, naface := 1,
         leftCell := fun _ => 0, rightCell := fun _ => 1,
         facenode1 := fun _ => 0, facenode2 := fun _ => 1,
         nx := fun _ => 1, ny := fun _ => 0, flen := fun _ => 1,
         area := fun _ => 1, btag := fun _ => 0, periodicmap := fun _ => 0,
         coords := fun _ _ => 0 }
  periodicId := 9
  secondOrder := false
  viscous := false
  constVisc := false
  gamma := 7/5
  prandtl := 7/10
  bcGhost := fun _ s => s
  flux := fun ul _ _ _ => ul
  viscFlux := fun _ _ _ _ _ _ _ => fun _ => 0
  getPrimitiveFromConserved := id
  getConservedFromPrimitive := id
  soundSpeed := fun _ => 1
  viscCoeff := fun _ => 1
  constViscCoeff := 1
  gradScheme := fun _ _ => fun _ _ _ => 0
  limiter := fun _ _ _ ul ur => (ul, ur)

/-! ### Claim C1: initialization of the residual evaluation -/

/-- C1 counterexample: on the same input state, two different prior contents
of the output array (all-zero versus all-100) give different residual
outputs, so the residual evaluation does not initialize the output array r to
zero; only the spectral-radius integral is zeroed. -/
theorem C1_counterexample_residual_depends_on_prior_contents :
    (compute_residual ex1spec (fun _ _ => 1) (fun _ _ => 0) false).res 0 0 ≠
    (compute_residual ex1spec (fun _ _ => 1) (fun _ _ => 100) false).res 0 0 := by
  intro h
  simp only [compute_residual] at h
  rw [residual_faceLoop_res, residual_faceLoop_res] at h
  simp only [zero_add] at h
  linarith

/-- C1 (amended): at the start of every residual evaluation the engine zeroes
the per-cell spectral-radius integral s, but it does not zero the residual
output array r: each output row equals the prior contents of that row plus
the state-determined sum of face flux contributions, and only the time steps
(which come from s) are independent of the output array's prior contents. -/
theorem C1_residual_accumulates_onto_prior (P : FlowSpec) (u r0 : ℕ → StateVec)
    (gettimesteps : Bool) (c : ℕ) (ivar : Fin 4) :
    (compute_residual P u r0 gettimesteps).res c ivar =
      r0 c ivar + sumUpTo (fun f => resContrib P u f c ivar) P.m.naface ∧
    (compute_residual P u r0 gettimesteps).dtm c =
      (compute_residual P u (fun _ _ => 0) gettimesteps).dtm c := by
  constructor
  · simp [compute_residual, residual_faceLoop_res]
  · simp [compute_residual, residual_faceLoop_integ]

/-! ### Claim C2: unphysical states are not rejected -/

/-- C2 counterexample: with ρ = −1 in the only cell, the residual evaluation
does not fail with an unphysical-state error: it returns status 0 (success)
and still writes the face flux contribution into the output vector. -/
theorem C2_counterexample_negative_density_not_rejected :
    ((fun (_ : ℕ) (_ : Fin 4) => (-1 : ℚ)) 0 0 < 0) ∧
    (compute_residual ex1spec (fun _ _ => -1) (fun _ _ => 0) false).status = 0 ∧
    (compute_residual ex1spec (fun _ _ => -1) (fun _ _ => 0) false).res 0 0 ≠ 0 := by
  refine ⟨by norm_num, rfl, ?_⟩
  simp only [compute_residual]
  rw [residual_faceLoop_res]
  norm_num [ex1spec, sumUpTo, resContrib, residual_faceFlux, residual_uleft,
    residual_uright, residual_uleft_firstorder, residual_uright_firstorder,
    residual_uleft_init, compute_boundary_states]

/-- C2 (amended): the residual evaluation contains no physicality check at
all: for every engine configuration, every input state (negative densities
and pressures included) and every prior output contents, it returns the
success status 0 and assembles the complete face-loop update into the output
vector. -/
theorem C2_compute_residual_never_fails (P : FlowSpec) (u r0 : ℕ → StateVec)
    (gettimesteps : Bool) :
    (compute_residual P u r0 gettimesteps).status = 0 ∧
    ∀ c ivar, (compute_residual P u r0 gettimesteps).res c ivar =
      r0 c ivar + sumUpTo (fun f => resContrib P u f c ivar) P.m.naface := by
  exact ⟨rfl, fun c ivar => by simp [compute_residual, residual_faceLoop_res]⟩

/-! ### Claims C4 and C9: boundary ghost states -/

/-- A two-cell, two-boundary-face, second-order engine: face 0 carries the
periodic marker 5 and is paired with face 1 (marker 3, not periodic); the
limiter reconstructs the constant 7 as every left face value; primitive and
conserved variables are related by a factor 2; the BC adds 1 to every
component. -/
def ex2spec : FlowSpec where
  m := { nelem := 2, nbface := 2, naface := 2,
         leftCell := fun f => f, rightCell := fun f => 2 + f,
         facenode1 := fun _ => 0, facenode2 := fun _ => 1,
         nx := fun _ => 1, ny := fun _ => 0, flen := fun _ => 1,
         area := fun _ => 1,
         btag := fun f => if f = 0 then 5 else 3,
         periodicmap := fun f => 1 - f,
         coords := fun _ _ => 0 }
  periodicId := 5
  secondOrder := true
  viscous := false
  constVisc := false
  gamma := 7/5
  prandtl := 7/10
  bcGhost := fun _ s => fun i => s i + 1
  flux := fun ul _ _ _ => ul
  viscFlux := fun _ _ _ _ _ _ _ => fun _ => 0
  getPrimitiveFromConserved := fun s => fun i => s i / 2
  getConservedFromPrimitive := fun s => fun i => 2 * s i
  soundSpeed := fun _ => 1
  viscCoeff := fun _ => 1
  constViscCoeff := 1
  gradScheme := fun _ _ => fun _ _ _ => 0
  limiter := fun _ _ _ _ ur => (fun _ _ => 7, ur)

/-- The same engine with second-order reconstruction turned off. -/
def ex3spec : FlowSpec := { ex2spec with secondOrder := false }

/-- A concrete state field on the two cells: cell 0 holds all-1, cell 1 all-3. -/
def ex2u : ℕ → StateVec := fun c _ => if c = 1 then 3 else 1

/-- C4 counterexample: in the second-order engine `ex2spec`, the ghost state
fed to the flux loop for the periodic face 0 is the reconstructed (limited,
conserved-converted) left face value of the paired face — here 2·7 = 14 —
and differs from the interior cell state of the left cell of the paired face
(all-3), refuting the claim for second-order residual evaluations. -/
theorem C4_counterexample_secondorder_periodic_ghost_is_reconstructed :
    ex2spec.secondOrder = true ∧
    ex2spec.m.btag 0 = ex2spec.periodicId ∧
    residual_uright ex2spec ex2u 0 ≠
      ex2u (ex2spec.m.leftCell (ex2spec.m.periodicmap 0)) := by
  refine ⟨rfl, rfl, ?_⟩
  intro h
  have h0 := congrFun h 0
  norm_num [ex2spec, ex2u, residual_uright, compute_boundary_states,
    residual_uleft, residual_uleft_conv, residual_limited] at h0

/-- C4 (amended): for a boundary face f carrying the periodic marker (with
its pair also a boundary face), the first-order residual evaluation feeds the
interior cell state of the left cell of the paired face to the flux as the
ghost state; the second-order evaluation does so only for the cell-average
ghost used to build gradients, while the ghost fed to the flux loop is the
reconstructed, limited, conserved-converted left face value of the paired
face. -/
theorem C4_periodic_ghost_states (P : FlowSpec) (u : ℕ → StateVec) (f : ℕ)
    (hf : f < P.m.nbface) (hmark : P.m.btag f = P.periodicId)
    (hpair : P.m.periodicmap f < P.m.nbface)
    (hmesh : P.m.nbface ≤ P.m.naface) :
    (P.secondOrder = false →
      residual_uright P u f = u (P.m.leftCell (P.m.periodicmap f))) ∧
    (P.secondOrder = true →
      residual_ug_cons P u f = u (P.m.leftCell (P.m.periodicmap f)) ∧
      residual_uright P u f =
        P.getConservedFromPrimitive ((residual_limited P u).1 (P.m.periodicmap f))) := by
  constructor
  · intro hso
    simp [residual_uright, compute_boundary_states, hf, hmark, hso,
      residual_uleft, residual_uleft_firstorder, residual_uleft_init, hpair,
      Nat.not_le.mpr hpair]
  · intro hso
    constructor
    · simp [residual_ug_cons, compute_boundary_states, hf, hmark,
        residual_uleft_init, hpair]
    · simp [residual_uright, compute_boundary_states, hf, hmark, hso,
        residual_uleft, residual_uleft_conv, lt_of_lt_of_le hpair hmesh]

/-- Witness for C4, applying the theorem at the second-order engine `ex2spec`
and at its first-order variant `ex3spec`, both at the periodic face 0. -/
theorem C4_periodic_ghost_states_witness :
    ((0 < ex2spec.m.nbface ∧ ex2spec.m.btag 0 = ex2spec.periodicId ∧
        ex2spec.m.periodicmap 0 < ex2spec.m.nbface ∧
        ex2spec.m.nbface ≤ ex2spec.m.naface) ∧
      (ex2spec.secondOrder = true →
        residual_ug_cons ex2spec ex2u 0 =
          ex2u (ex2spec.m.leftCell (ex2spec.m.periodicmap 0)) ∧
        residual_uright ex2spec ex2u 0 =
          ex2spec.getConservedFromPrimitive
            ((residual_limited ex2spec ex2u).1 (ex2spec.m.periodicmap 0)))) ∧
    ((0 < ex3spec.m.nbface ∧ ex3spec.m.btag 0 = ex3spec.periodicId ∧
        ex3spec.m.periodicmap 0 < ex3spec.m.nbface ∧
        ex3spec.m.nbface ≤ ex3spec.m.naface) ∧
      (ex3spec.secondOrder = false →
        residual_uright ex3spec ex2u 0 =
          ex2u (ex3spec.m.leftCell (ex3spec.m.periodicmap 0)))) :=
  ⟨⟨⟨by norm_num [ex2spec], rfl, by norm_num [ex2spec], by norm_num [ex2spec]⟩,
    (C4_periodic_ghost_states ex2spec ex2u 0 (by norm_num [ex2spec]) rfl
      (by norm_num [ex2spec]) (by norm_num [ex2spec])).2⟩,
   ⟨⟨by norm_num [ex3spec, ex2spec], rfl, by norm_num [ex3spec, ex2spec],
      by norm_num [ex3spec, ex2spec]⟩,
    (C4_periodic_ghost_states ex3spec ex2u 0 (by norm_num [ex3spec, ex2spec]) rfl
      (by norm_num [ex3spec, ex2spec]) (by norm_num [ex3spec, ex2spec])).1⟩⟩

/-- C9: in every second-order residual evaluation, for every non-periodic
boundary face the right state fed to the inviscid flux is the BC ghost state
of the reconstructed, limited left face value converted back to conserved
variables — and the boundary condition is additionally applied to the
cell-centre state to build the (conserved, then primitive) ghost cell
average used for gradient computation, so the BC acts twice per evaluation. -/
theorem C9_secondorder_boundary_flux_uses_reconstructed_ghost (P : FlowSpec)
    (u : ℕ → StateVec) (f : ℕ) (hso : P.secondOrder = true)
    (hf : f < P.m.nbface) (hmark : P.m.btag f ≠ P.periodicId)
    (hmesh : P.m.nbface ≤ P.m.naface) :
    residual_uright P u f =
      P.bcGhost f (P.getConservedFromPrimitive ((residual_limited P u).1 f)) ∧
    residual_ug_cons P u f = P.bcGhost f (u (P.m.leftCell f)) ∧
    residual_ug_used P u f =
      P.getPrimitiveFromConserved (P.bcGhost f (u (P.m.leftCell f))) := by
  refine ⟨?_, ?_, ?_⟩
  · simp [residual_uright, compute_boundary_states, hf, hmark, hso,
      residual_uleft, residual_uleft_conv, lt_of_lt_of_le hf hmesh]
  · simp [residual_ug_cons, compute_boundary_states, hf, hmark, residual_uleft_init]
  · simp [residual_ug_used, residual_ug_prim, residual_ug_cons, hso,
      compute_boundary_states, hf, hmark, residual_uleft_init]

/-- Witness for C9 at the non-periodic boundary face 1 of `ex2spec`. -/
theorem C9_secondorder_boundary_flux_uses_reconstructed_ghost_witness :
    (ex2spec.secondOrder = true ∧ 1 < ex2spec.m.nbface ∧
      ex2spec.m.btag 1 ≠ ex2spec.periodicId ∧
      ex2spec.m.nbface ≤ ex2spec.m.naface) ∧
    (residual_uright ex2spec ex2u 1 =
      ex2spec.bcGhost 1
        (ex2spec.getConservedFromPrimitive ((residual_limited ex2spec ex2u).1 1)) ∧
    residual_ug_cons ex2spec ex2u 1 =
      ex2spec.bcGhost 1 (ex2u (ex2spec.m.leftCell 1)) ∧
    residual_ug_used ex2spec ex2u 1 =
      ex2spec.getPrimitiveFromConserved
        (ex2spec.bcGhost 1 (ex2u (ex2spec.m.leftCell 1)))) :=
  ⟨⟨rfl, by norm_num [ex2spec], by norm_num [ex2spec], by norm_num [ex2spec]⟩,
   C9_secondorder_boundary_flux_uses_reconstructed_ghost ex2spec ex2u 1 rfl
     (by norm_num [ex2spec]) (by norm_num [ex2spec]) (by norm_num [ex2spec])⟩

/-! ### Claim C5: local time steps -/

/-- The per-face, per-side spectral-radius contribution exactly as the
specification words it: (|vn|+c)ℓ plus, for viscous simulations, the
stiffness term max(4/(3ρ), γ/ρ)·μ/Pr·ℓ²/|Ω_cell| of the incident cell. -/
def spec_spectralContribution (P : FlowSpec) (state : StateVec) (f cell : ℕ) : ℚ :=
  let len := P.m.flen f
  let vn := (state 1 * P.m.nx f + state 2 * P.m.ny f) / state 0
  let mu := if P.constVisc then P.constViscCoeff else P.viscCoeff state
  (|vn| + P.soundSpeed state) * len +
    if P.viscous then
      max (4 / (3 * state 0)) (P.gamma / state 0) * mu / P.prandtl *
        (len * len) / P.m.area cell
    else 0

/-- C5: when time steps are requested, every face adds the spectral-radius
contribution (|vn|+c)ℓ — plus the viscous stiffness term for viscous
simulations — to each incident real cell (left side from the left face state,
right side from the right face state, the latter only when the right cell is
real), and the returned local time step of every real cell c is its area
divided by the accumulated integral. -/
theorem C5_local_time_steps (P : FlowSpec) (u r0 : ℕ → StateVec) (c : ℕ)
    (hc : c < P.m.nelem) :
    (∀ f, residual_specradi P u f =
      spec_spectralContribution P (residual_uleft P u f) f (P.m.leftCell f)) ∧
    (∀ f, P.m.rightCell f < P.m.nelem → residual_specradj P u f =
      spec_spectralContribution P (residual_uright P u f) f (P.m.rightCell f)) ∧
    (compute_residual P u r0 true).dtm c =
      P.m.area c / sumUpTo (fun f => integContrib P u f c) P.m.naface := by
  refine ⟨?_, ?_, ?_⟩
  · intro f
    simp only [residual_specradi, spec_spectralContribution]
    by_cases hv : P.viscous = true <;> simp [hv]
  · intro f hr
    simp only [residual_specradj, spec_spectralContribution]
    by_cases hv : P.viscous = true <;> simp [hv, hr]
  · simp [compute_residual, hc, residual_faceLoop_integ]

/-- Witness for C5 at the one-cell engine, cell 0, with the per-face parts
instantiated at face 0. -/
theorem C5_local_time_steps_witness :
    (0 < ex1spec.m.nelem) ∧
    residual_specradi ex1spec (fun _ _ => 1) 0 =
      spec_spectralContribution ex1spec (residual_uleft ex1spec (fun _ _ => 1) 0) 0
        (ex1spec.m.leftCell 0) ∧
    (compute_residual ex1spec (fun _ _ => 1) (fun _ _ => 0) true).dtm 0 =
      ex1spec.m.area 0 /
        sumUpTo (fun f => integContrib ex1spec (fun _ _ => 1) f 0) ex1spec.m.naface :=
  ⟨by norm_num [ex1spec],
   (C5_local_time_steps ex1spec (fun _ _ => 1) (fun _ _ => 0) 0
      (by norm_num [ex1spec])).1 0,
   (C5_local_time_steps ex1spec (fun _ _ => 1) (fun _ _ => 0) 0
      (by norm_num [ex1spec])).2.2⟩

/-! ### Claim C3: Jacobian assembly

Embedding of `FlowFV::compute_jacobian` (aspatial.cpp lines 1088–1189).  The
block-sparse matrix is modelled by a function from block positions to 4×4
blocks; `MatSetValuesBlocked(..., ADD_VALUES)` becomes `addBlock`.  The
Jacobian flux (`jflux->get_jacobian`, which assigns both blocks), the
boundary-condition Jacobian (`compute_boundary_Jacobian`, returning the ghost
state and ∂uG/∂uI) and the increments `computeViscousFluxJacobian` adds into
the two blocks are fields of `JacSpec`. -/

/-- A 4×4 Jacobian block. -/
abbrev Mat4 := Matrix (Fin 4) (Fin 4) ℚ

/-- Data of one engine instance as consumed by the Jacobian assembly. -/
structure JacSpec where
  m : FVMesh
  viscous : Bool
  jflux : StateVec → StateVec → ℚ → ℚ → Mat4 × Mat4
  bcJac : ℕ → StateVec → StateVec × Mat4
  viscJacAdd : ℕ → StateVec → StateVec → Mat4 × Mat4

/-- Add M into the (r,c) block of the block-sparse matrix. -/
def addBlock (A : ℕ → ℕ → Mat4) (r c : ℕ) (M : Mat4) : ℕ → ℕ → Mat4 :=
  fun i j => if i = r ∧ j = c then A i j + M else A i j

/-- Lines 1111–1124: the (left, right) flux Jacobian blocks of a boundary
face — the Jacobian flux evaluated at the interior state and the BC ghost
state, plus the viscous Jacobian increments for viscous simulations. -/
def jac_boundary_blocks (P : JacSpec) (u : ℕ → StateVec) (f : ℕ) : Mat4 × Mat4 :=
  let lelem := P.m.leftCell f
  let ufd := P.bcJac f (u lelem)
  let lr := P.jflux (u lelem) ufd.1 (P.m.nx f) (P.m.ny f)
  if P.viscous then
    let va := P.viscJacAdd f (u lelem) ufd.1
    (lr.1 + va.1, lr.2 + va.2)
  else lr

/-- One boundary-face iteration (lines 1102–1139): the combined block
−len·(left − right·(∂uG/∂uI)) is added into the diagonal block of the left
cell. -/
def jac_boundaryStep (P : JacSpec) (u : ℕ → StateVec) (f : ℕ)
    (A : ℕ → ℕ → Mat4) : ℕ → ℕ → Mat4 :=
  let lelem := P.m.leftCell f
  let len := P.m.flen f
  let drdl := (P.bcJac f (u lelem)).2
  let lr := jac_boundary_blocks P u f
  addBlock A lelem lelem ((-len) • (lr.1 - lr.2 * drdl))

/-- Lines 1151–1162: the (L, U) flux Jacobian blocks of an interior face,
including the viscous increments for viscous simulations. -/
def jac_interior_blocks (P : JacSpec) (u : ℕ → StateVec) (f : ℕ) : Mat4 × Mat4 :=
  let lelem := P.m.leftCell f
  let relem := P.m.rightCell f
  let lu := P.jflux (u lelem) (u relem) (P.m.nx f) (P.m.ny f)
  if P.viscous then
    let va := P.viscJacAdd f (u lelem) (u relem)
    (lu.1 + va.1, lu.2 + va.2)
  else lu

/-- One interior-face iteration (lines 1141–1184): scale L and U by the face
length, add L at (R,L) and U at (L,R), then add −L at (L,L) and −U at
(R,R). -/
def jac_interiorStep (P : JacSpec) (u : ℕ → StateVec) (f : ℕ)
    (A : ℕ → ℕ → Mat4) : ℕ → ℕ → Mat4 :=
  let lelem := P.m.leftCell f
  let relem := P.m.rightCell f
  let len := P.m.flen f
  let L := len • (jac_interior_blocks P u f).1
  let U := len • (jac_interior_blocks P u f).2
  let A1 := addBlock A relem lelem L
  let A2 := addBlock A1 lelem relem U
  let A3 := addBlock A2 lelem lelem (-L)
  addBlock A3 relem relem (-U)

/-- The loop over boundary faces 0, …, n−1. -/
def jac_boundaryLoop (P : JacSpec) (u : ℕ → StateVec) :
    ℕ → (ℕ → ℕ → Mat4) → (ℕ → ℕ → Mat4)
  | 0, A => A
  | n + 1, A => jac_boundaryStep P u n (jac_boundaryLoop P u n A)

/-- The loop over interior faces nbface, …, nbface+k−1. -/
def jac_interiorLoop (P : JacSpec) (u : ℕ → StateVec) :
    ℕ → (ℕ → ℕ → Mat4) → (ℕ → ℕ → Mat4)
  | 0, A => A
  | k + 1, A => jac_interiorStep P u (P.m.nbface + k) (jac_interiorLoop P u k A)

/-- Embedding of `FlowFV::compute_jacobian` (lines 1088–1189): the boundary
face loop followed by the interior face loop, accumulating into the given
matrix. -/
def compute_jacobian (P : JacSpec) (u : ℕ → StateVec) (A0 : ℕ → ℕ → Mat4) :
    ℕ → ℕ → Mat4 :=
  jac_interiorLoop P u (P.m.naface - P.m.nbface) (jac_boundaryLoop P u P.m.nbface A0)

/-- The block a boundary face adds at position (i,j), as the claim states it:
−ℓ(L − R·∂uG/∂uI) at the left cell's diagonal block, zero elsewhere. -/
def jac_bContrib (P : JacSpec) (u : ℕ → StateVec) (f i j : ℕ) : Mat4 :=
  if i = P.m.leftCell f ∧ j = P.m.leftCell f then
    (-(P.m.flen f)) • ((jac_boundary_blocks P u f).1 -
      (jac_boundary_blocks P u f).2 * (P.bcJac f (u (P.m.leftCell f))).2)
  else 0

/-- The blocks an interior face adds at position (i,j), as the claim states
it: with the ℓ-scaled Jacobians L and U, +L at (R,L), +U at (L,R), −L at
(L,L) and −U at (R,R). -/
def jac_iContrib (P : JacSpec) (u : ℕ → StateVec) (f i j : ℕ) : Mat4 :=
  let lelem := P.m.leftCell f
  let relem := P.m.rightCell f
  let L := P.m.flen f • (jac_interior_blocks P u f).1
  let U := P.m.flen f • (jac_interior_blocks P u f).2
  (if i = relem ∧ j = lelem then L else 0) +
  (if i = lelem ∧ j = relem then U else 0) +
  (if i = lelem ∧ j = lelem then -L else 0) +
  (if i = relem ∧ j = relem then -U else 0)

/-- Block sum g(0) + … + g(n−1). -/
def matSumUpTo (g : ℕ → Mat4) : ℕ → Mat4
  | 0 => 0
  | n + 1 => matSumUpTo g n + g n

/-- Applying `addBlock` reads back as adding an if-guarded block. -/
theorem addBlock_apply (A : ℕ → ℕ → Mat4) (r c : ℕ) (M : Mat4) (i j : ℕ) :
    addBlock A r c M i j = A i j + if i = r ∧ j = c then M else 0 := by
  unfold addBlock
  split_ifs <;> simp

/-- One boundary-face iteration adds exactly `jac_bContrib` at every
position. -/
theorem jac_boundaryStep_apply (P : JacSpec) (u : ℕ → StateVec) (f : ℕ)
    (A : ℕ → ℕ → Mat4) (i j : ℕ) :
    jac_boundaryStep P u f A i j = A i j + jac_bContrib P u f i j := by
  simp only [jac_boundaryStep, jac_bContrib, addBlock_apply]

/-- One interior-face iteration adds exactly `jac_iContrib` at every
position. -/
theorem jac_interiorStep_apply (P : JacSpec) (u : ℕ → StateVec) (f : ℕ)
    (A : ℕ → ℕ → Mat4) (i j : ℕ) :
    jac_interiorStep P u f A i j = A i j + jac_iContrib P u f i j := by
  simp only [jac_interiorStep, jac_iContrib, addBlock_apply]
  abel

/-- The boundary loop adds the sum of the boundary contributions. -/
theorem jac_boundaryLoop_apply (P : JacSpec) (u : ℕ → StateVec) (n : ℕ)
    (A : ℕ → ℕ → Mat4) (i j : ℕ) :
    jac_boundaryLoop P u n A i j =
      A i j + matSumUpTo (fun f => jac_bContrib P u f i j) n := by
  induction n with
  | zero => simp [jac_boundaryLoop, matSumUpTo]
  | succ n ih =>
    simp only [jac_boundaryLoop, matSumUpTo, jac_boundaryStep_apply, ih]
    abel

/-- The interior loop adds the sum of the interior contributions. -/
theorem jac_interiorLoop_apply (P : JacSpec) (u : ℕ → StateVec) (n : ℕ)
    (A : ℕ → ℕ → Mat4) (i j : ℕ) :
    jac_interiorLoop P u n A i j =
      A i j + matSumUpTo (fun k => jac_iContrib P u (P.m.nbface + k) i j) n := by
  induction n with
  | zero => simp [jac_interiorLoop, matSumUpTo]
  | succ n ih =>
    simp only [jac_interiorLoop, matSumUpTo, jac_interiorStep_apply, ih]
    abel

/-- C3: the Jacobian assembly adds, for every boundary face, exactly the
block −ℓ(L − R·∂uG/∂uI) into the diagonal block of the left cell (L, R being
the inviscid-plus-viscous flux Jacobians w.r.t. interior and ghost states),
and, for every interior face with ℓ-scaled Jacobian blocks L and U, exactly
+L at (R,L), +U at (L,R), −L at (L,L) and −U at (R,R); every entry of the
output matrix is its prior value plus these per-face contributions. -/
theorem C3_jacobian_assembly (P : JacSpec) (u : ℕ → StateVec)
    (A0 : ℕ → ℕ → Mat4) (i j : ℕ) :
    compute_jacobian P u A0 i j =
      A0 i j + matSumUpTo (fun f => jac_bContrib P u f i j) P.m.nbface +
        matSumUpTo (fun k => jac_iContrib P u (P.m.nbface + k) i j)
          (P.m.naface - P.m.nbface) := by
  simp only [compute_jacobian, jac_interiorLoop_apply, jac_boundaryLoop_apply]

/-! ### Claim C8: surface data

Embedding of `FlowFV_base::computeSurfaceData` (aspatial.cpp lines 390–503).
The gas-physics calls (`getPressureFromConserved`,
`getViscosityCoeffFromConserved`, `getFreestreamPressure`) are fields of
`SurfSpec`; the flow direction vector (cos α, sin α) computed by
`flowDirectionVector` is carried as the pair of fields (avx, avy), since ℚ
has no trigonometric functions. -/

/-- Engine data consumed by the surface-data computation. -/
structure SurfSpec where
  m : FVMesh
  pinf : ℚ
  pressure : StateVec → ℚ
  viscosityCoeff : StateVec → ℚ
  avx : ℚ
  avy : ℚ

/-- Lines 437–442: the pressure coefficient of a marked face, 2(p − p∞)
evaluated from the left cell's conserved state. -/
def surfCp (P : SurfSpec) (u : ℕ → StateVec) (iface : ℕ) : ℚ :=
  (P.pressure (u (P.m.leftCell iface)) - P.pinf) * 2

/-- Lines 462–480: the skin-friction coefficient 2·τ_w from the left cell's
state and conservative gradients (quotient rule for the velocity gradient
tensor). -/
def surfCf (P : SurfSpec) (u : ℕ → StateVec) (grad : ℕ → GradVec) (iface : ℕ) : ℚ :=
  let lelem := P.m.leftCell iface
  let n0 := P.m.nx iface
  let n1 := P.m.ny iface
  let muhat := P.viscosityCoeff (u lelem)
  let r := u lelem 0
  let g00 := (grad lelem 0 1 * r - u lelem 1 * grad lelem 0 0) / (r * r)
  let g01 := (grad lelem 1 1 * r - u lelem 1 * grad lelem 1 0) / (r * r)
  let g10 := (grad lelem 0 2 * r - u lelem 2 * grad lelem 0 0) / (r * r)
  let g11 := (grad lelem 1 2 * r - u lelem 2 * grad lelem 1 0) / (r * r)
  let tauw := muhat * ((2 * g00 * n0 + (g01 + g10) * n1) * n1 +
    ((g10 + g01) * n0 + 2 * g11 * n1) * (-n0))
  2 * tauw

/-- Lines 423–435: the face-centre coordinate (mean of the two face nodes). -/
def surfFaceCenter (P : SurfSpec) (iface : ℕ) (j : Fin 2) : ℚ :=
  (P.m.coords (P.m.facenode1 iface) j + P.m.coords (P.m.facenode2 iface) j) / 2

/-- Line 485: face normal dotted with the free-stream direction. -/
def surf_ndotf (P : SurfSpec) (iface : ℕ) : ℚ :=
  P.m.nx iface * P.avx + P.m.ny iface * P.avy

/-- Line 487: face normal dotted with the direction normal to the
free stream, (−sin α, cos α). -/
def surf_ndotnf (P : SurfSpec) (iface : ℕ) : ℚ :=
  P.m.nx iface * (-P.avy) + P.m.ny iface * P.avx

/-- Line 489: face tangent dotted with the free-stream direction. -/
def surf_tdotf (P : SurfSpec) (iface : ℕ) : ℚ :=
  P.m.ny iface * P.avx - P.m.nx iface * P.avy

/-- The output row written for a marked face: the two face-centre
coordinates, then Cp (at index NDIM = 2), then Cf. -/
def surfRow (P : SurfSpec) (u : ℕ → StateVec) (grad : ℕ → GradVec) (iface : ℕ) :
    Fin 4 → ℚ :=
  fun k =>
    match k with
    | 0 => surfFaceCenter P iface 0
    | 1 => surfFaceCenter P iface 1
    | 2 => surfCp P u iface
    | 3 => surfCf P u grad iface

/-- Loop state of the marked-face iteration (lines 400–497): the face counter
for this marker, the accumulated total length, the three integrals and the
output array. -/
structure SurfAcc where
  facecoun : ℕ
  totallen : ℚ
  clsum : ℚ
  cdpsum : ℚ
  cdfsum : ℚ
  output : ℕ → Fin 4 → ℚ

/-- One iteration of the boundary-face loop (lines 411–497): faces not
carrying the requested marker are skipped; marked faces write their output
row at the current face counter and accumulate length, Cdp, Cdf and Cl. -/
def surfStep (P : SurfSpec) (u : ℕ → StateVec) (grad : ℕ → GradVec) (iwbcm : ℤ)
    (iface : ℕ) (acc : SurfAcc) : SurfAcc :=
  if P.m.btag iface = iwbcm then
    let len := P.m.flen iface
    let cp := surfCp P u iface
    let cf := surfCf P u grad iface
    { facecoun := acc.facecoun + 1
      totallen := acc.totallen + len
      clsum := acc.clsum + cp * surf_ndotnf P iface * len
      cdpsum := acc.cdpsum + cp * surf_ndotf P iface * len
      cdfsum := acc.cdfsum + cf * surf_tdotf P iface * len
      output := Function.update acc.output acc.facecoun (surfRow P u grad iface) }
  else acc

/-- The boundary-face loop over faces 0, …, n−1. -/
def surfLoop (P : SurfSpec) (u : ℕ → StateVec) (grad : ℕ → GradVec) (iwbcm : ℤ) :
    ℕ → SurfAcc → SurfAcc
  | 0, acc => acc
  | n + 1, acc => surfStep P u grad iwbcm n (surfLoop P u grad iwbcm n acc)

/-- Result of the surface-data computation: the returned triple and the
output array. -/
structure SurfOut where
  liftCoeff : ℚ
  dragPressureCoeff : ℚ
  dragFrictionCoeff : ℚ
  output : ℕ → Fin 4 → ℚ

/-- Embedding of `FlowFV_base::computeSurfaceData` (lines 390–503): run the
marked-face loop from zeroed integrators, then divide the three integrals by
the total marked length and return (Cl, Cdp, Cdf). -/
def computeSurfaceData (P : SurfSpec) (u : ℕ → StateVec) (grad : ℕ → GradVec)
    (iwbcm : ℤ) (out0 : ℕ → Fin 4 → ℚ) : SurfOut :=
  let acc := surfLoop P u grad iwbcm P.m.nbface
    { facecoun := 0, totallen := 0, clsum := 0, cdpsum := 0, cdfsum := 0,
      output := out0 }
  { liftCoeff := acc.clsum / acc.totallen
    dragPressureCoeff := acc.cdpsum / acc.totallen
    dragFrictionCoeff := acc.cdfsum / acc.totallen
    output := acc.output }

/-- The number of faces below n carrying the requested marker. -/
def markedCount (P : SurfSpec) (iwbcm : ℤ) : ℕ → ℕ
  | 0 => 0
  | n + 1 => markedCount P iwbcm n + if P.m.btag n = iwbcm then 1 else 0

/-- The marked-face count is monotone. -/
theorem markedCount_mono (P : SurfSpec) (iwbcm : ℤ) {a b : ℕ} (h : a ≤ b) :
    markedCount P iwbcm a ≤ markedCount P iwbcm b := by
  induction h with
  | refl => exact le_refl _
  | step h ih =>
    refine le_trans ih ?_
    simp only [markedCount]
    split_ifs <;> omega

/-- Below a marked face f, the count is strictly smaller than at any bound
beyond f. -/
theorem markedCount_strict (P : SurfSpec) (iwbcm : ℤ) {f n : ℕ} (h : f < n)
    (hm : P.m.btag f = iwbcm) :
    markedCount P iwbcm f < markedCount P iwbcm n := by
  have h1 : markedCount P iwbcm (f + 1) = markedCount P iwbcm f + 1 := by
    simp [markedCount, hm]
  have h2 : markedCount P iwbcm (f + 1) ≤ markedCount P iwbcm n :=
    markedCount_mono P iwbcm h
  omega

/-- The loop's face counter equals the marked-face count. -/
theorem surfLoop_facecoun (P : SurfSpec) (u : ℕ → StateVec) (grad : ℕ → GradVec)
    (iwbcm : ℤ) (n : ℕ) (acc : SurfAcc) :
    (surfLoop P u grad iwbcm n acc).facecoun =
      acc.facecoun + markedCount P iwbcm n := by
  induction n with
  | zero => simp [surfLoop, markedCount]
  | succ n ih =>
    simp only [surfLoop, markedCount, surfStep]
    split_ifs with h <;> simp [ih] <;> omega

/-- The loop's total length is the sum of the marked faces' lengths. -/
theorem surfLoop_totallen (P : SurfSpec) (u : ℕ → StateVec) (grad : ℕ → GradVec)
    (iwbcm : ℤ) (n : ℕ) (acc : SurfAcc) :
    (surfLoop P u grad iwbcm n acc).totallen =
      acc.totallen +
        sumUpTo (fun f => if P.m.btag f = iwbcm then P.m.flen f else 0) n := by
  induction n with
  | zero => simp [surfLoop, sumUpTo]
  | succ n ih =>
    simp only [surfLoop, sumUpTo, surfStep]
    split_ifs with h <;> simp [ih, h] <;> ring

/-- The loop's lift integral is the marked sum of Cp·(n·f̂⊥)·ℓ. -/
theorem surfLoop_clsum (P : SurfSpec) (u : ℕ → StateVec) (grad : ℕ → GradVec)
    (iwbcm : ℤ) (n : ℕ) (acc : SurfAcc) :
    (surfLoop P u grad iwbcm n acc).clsum =
      acc.clsum +
        sumUpTo (fun f => if P.m.btag f = iwbcm then
          surfCp P u f * surf_ndotnf P f * P.m.flen f else 0) n := by
  induction n with
  | zero => simp [surfLoop, sumUpTo]
  | succ n ih =>
    simp only [surfLoop, sumUpTo, surfStep]
    split_ifs with h <;> simp [ih, h] <;> ring

/-- The loop's pressure-drag integral is the marked sum of Cp·(n·f̂)·ℓ. -/
theorem surfLoop_cdpsum (P : SurfSpec) (u : ℕ → StateVec) (grad : ℕ → GradVec)
    (iwbcm : ℤ) (n : ℕ) (acc : SurfAcc) :
    (surfLoop P u grad iwbcm n acc).cdpsum =
      acc.cdpsum +
        sumUpTo (fun f => if P.m.btag f = iwbcm then
          surfCp P u f * surf_ndotf P f * P.m.flen f else 0) n := by
  induction n with
  | zero => simp [surfLoop, sumUpTo]
  | succ n ih =>
    simp only [surfLoop, sumUpTo, surfStep]
    split_ifs with h <;> simp [ih, h] <;> ring

/-- The loop's friction-drag integral is the marked sum of Cf·(t·f̂)·ℓ. -/
theorem surfLoop_cdfsum (P : SurfSpec) (u : ℕ → StateVec) (grad : ℕ → GradVec)
    (iwbcm : ℤ) (n : ℕ) (acc : SurfAcc) :
    (surfLoop P u grad iwbcm n acc).cdfsum =
      acc.cdfsum +
        sumUpTo (fun f => if P.m.btag f = iwbcm then
          surfCf P u grad f * surf_tdotf P f * P.m.flen f else 0) n := by
  induction n with
  | zero => simp [surfLoop, sumUpTo]
  | succ n ih =>
    simp only [surfLoop, sumUpTo, surfStep]
    split_ifs with h <;> simp [ih, h] <;> ring

/-- The output row written for a marked face f survives to the end of the
loop at row index facecoun₀ + markedCount f. -/
theorem surfLoop_output (P : SurfSpec) (u : ℕ → StateVec) (grad : ℕ → GradVec)
    (iwbcm : ℤ) (n : ℕ) (acc : SurfAcc) (f : ℕ) (hf : f < n)
    (hm : P.m.btag f = iwbcm) :
    (surfLoop P u grad iwbcm n acc).output
        (acc.facecoun + markedCount P iwbcm f) = surfRow P u grad f := by
  induction n with
  | zero => omega
  | succ n ih =>
    rcases Nat.lt_or_ge f n with hfn | hfn
    · have hrec := ih hfn
      simp only [surfLoop, surfStep]
      split_ifs with hmn
      · have hfc := surfLoop_facecoun P u grad iwbcm n acc
        have hne : acc.facecoun + markedCount P iwbcm f ≠
            (surfLoop P u grad iwbcm n acc).facecoun := by
          rw [hfc]
          have := markedCount_strict P iwbcm hfn hm
          omega
        simp only [Function.update_apply, if_neg hne]
        exact hrec
      · exact hrec
    · have hfe : f = n := by omega
      subst hfe
      have hfc := surfLoop_facecoun P u grad iwbcm f acc
      simp [surfLoop, surfStep, hm, Function.update_apply, hfc]

/-- C8: for every boundary face carrying the requested wall marker, the
pressure-coefficient output (at its row of the output array, index 2) equals
2(p − p∞) evaluated from the left cell's state, and the returned triple
(Cl, Cdp, Cdf) consists of the face-length-weighted marked sums of
Cp·(n·f̂⊥), Cp·(n·f̂) and Cf·(t·f̂) respectively, each divided by the total
length of the marked faces. -/
theorem C8_surface_data (P : SurfSpec) (u : ℕ → StateVec) (grad : ℕ → GradVec)
    (iwbcm : ℤ) (out0 : ℕ → Fin 4 → ℚ) :
    ((computeSurfaceData P u grad iwbcm out0).liftCoeff =
      sumUpTo (fun f => if P.m.btag f = iwbcm then
          surfCp P u f * surf_ndotnf P f * P.m.flen f else 0) P.m.nbface /
        sumUpTo (fun f => if P.m.btag f = iwbcm then P.m.flen f else 0)
          P.m.nbface ∧
    (computeSurfaceData P u grad iwbcm out0).dragPressureCoeff =
      sumUpTo (fun f => if P.m.btag f = iwbcm then
          surfCp P u f * surf_ndotf P f * P.m.flen f else 0) P.m.nbface /
        sumUpTo (fun f => if P.m.btag f = iwbcm then P.m.flen f else 0)
          P.m.nbface ∧
    (computeSurfaceData P u grad iwbcm out0).dragFrictionCoeff =
      sumUpTo (fun f => if P.m.btag f = iwbcm then
          surfCf P u grad f * surf_tdotf P f * P.m.flen f else 0) P.m.nbface /
        sumUpTo (fun f => if P.m.btag f = iwbcm then P.m.flen f else 0)
          P.m.nbface) ∧
    ∀ f, f < P.m.nbface → P.m.btag f = iwbcm →
      (computeSurfaceData P u grad iwbcm out0).output (markedCount P iwbcm f) 2 =
        surfCp P u f := by
  refine ⟨⟨?_, ?_, ?_⟩, ?_⟩
  · simp [computeSurfaceData, surfLoop_clsum, surfLoop_totallen]
  · simp [computeSurfaceData, surfLoop_cdpsum, surfLoop_totallen]
  · simp [computeSurfaceData, surfLoop_cdfsum, surfLoop_totallen]
  · intro f hf hm
    have h := surfLoop_output P u grad iwbcm P.m.nbface
      { facecoun := 0, totallen := 0, clsum := 0, cdpsum := 0, cdfsum := 0,
        output := out0 } f hf hm
    simp only [computeSurfaceData]
    simp only [Nat.zero_add] at h
    rw [h]
    rfl

/-- A concrete surface-data engine: two boundary faces, face 0 carrying the
wall marker 4, face 1 a different marker. -/
def ex4surf : SurfSpec where
  m := { nelem := 2, nbface := 2, naface := 2,
         leftCell := fun f => f, rightCell := fun f => 2 + f,
         facenode1 := fun _ => 0, facenode2 := fun _ => 1,
         nx := fun _ => 1, ny := fun _ => 0, flen := fun _ => 1,
         area := fun _ => 1,
         btag := fun f => if f = 0 then 4 else 3,
         periodicmap := fun f => f,
         coords := fun _ _ => 0 }
  pinf := 1
  pressure := fun s => s 3
  viscosityCoeff := fun _ => 1
  avx := 1
  avy := 0

/-- Witness for C8 at `ex4surf`, instantiating the per-face part at the
marked face 0. -/
theorem C8_surface_data_witness :
    ((computeSurfaceData ex4surf ex2u (fun _ _ _ => 0) 4 (fun _ _ => 0)).liftCoeff =
      sumUpTo (fun f => if ex4surf.m.btag f = 4 then
          surfCp ex4surf ex2u f * surf_ndotnf ex4surf f * ex4surf.m.flen f else 0)
        ex4surf.m.nbface /
        sumUpTo (fun f => if ex4surf.m.btag f = 4 then ex4surf.m.flen f else 0)
          ex4surf.m.nbface) ∧
    (0 < ex4surf.m.nbface ∧ ex4surf.m.btag 0 = 4) ∧
    (computeSurfaceData ex4surf ex2u (fun _ _ _ => 0) 4 (fun _ _ => 0)).output
        (markedCount ex4surf 4 0) 2 = surfCp ex4surf ex2u 0 :=
  ⟨(C8_surface_data ex4surf ex2u (fun _ _ _ => 0) 4 (fun _ _ => 0)).1.1,
   ⟨by norm_num [ex4surf], by norm_num [ex4surf]⟩,
   (C8_surface_data ex4surf ex2u (fun _ _ _ => 0) 4 (fun _ _ => 0)).2 0
     (by norm_num [ex4surf]) (by norm_num [ex4surf])⟩

end FVENS
